import Mathlib

set_option autoImplicit false
set_option linter.dupNamespace false

/-!
Shallow embedding of `src/proxy/upstream.rs` of the mcp-access-point
repository: the upstream configuration data model, construction of
pingora TCP/HTTP health checks from configuration, the load-balancer
wrapper `LB` and `SelectionLB`, `ProxyUpstream` with its health-check
lifecycle, request-header rewriting, backend-selection post-processing,
and `load_static_upstreams`.

Durations are modelled in whole seconds as `Nat` (the source only ever
builds them via `Duration::from_secs`).  Machine integers of the source
(`u16`/`u32`/`usize`) are modelled as `Nat`; no arithmetic in the
modelled code can overflow or wrap.
-/

namespace Config

/-- Selection strategy kind of an upstream (`config::SelectionType`). -/
inductive SelectionType where
  | RoundRobin
  | Random
  | Fnv
  | Ketama
  deriving DecidableEq

/-- Active health check protocol kind (`config::ActiveCheckType`). -/
inductive ActiveCheckType where
  | TCP
  | HTTP
  | HTTPS
  deriving DecidableEq

/-- Healthy block of a health check configuration (`config::Healthy`):
probe interval in seconds, consecutive-success threshold, accepted
HTTP status codes. -/
structure Healthy where
  interval : Nat
  successes : Nat
  http_statuses : List Nat
  deriving DecidableEq

/-- Unhealthy block of a health check configuration
(`config::Unhealthy`): independent consecutive-failure thresholds for
TCP and HTTP probes. -/
structure Unhealthy where
  tcp_failures : Nat
  http_failures : Nat
  deriving DecidableEq

/-- Active health check parameters (`config::ActiveHealthCheck`), as
read by `upstream.rs`: protocol, timeout (seconds), HTTP path, expected
host, port override, certificate verification, probe request headers,
and the optional healthy/unhealthy blocks. -/
structure ActiveCheck where
  check_kind : ActiveCheckType
  timeout : Nat
  http_path : String
  host : Option String
  port : Option Nat
  https_verify_certificate : Bool
  req_headers : List String
  healthy : Option Healthy
  unhealthy : Option Unhealthy
  deriving DecidableEq

/-- Health check configuration of one upstream (`config::HealthCheck`). -/
structure HealthCheck where
  active : ActiveCheck
  deriving DecidableEq

/-- Pass-host policy (`config::UpstreamPassHost`): forward the client
host unchanged or rewrite it to the configured upstream host. -/
inductive UpstreamPassHost where
  | PASS
  | REWRITE
  deriving DecidableEq

/-- Connection timeout triple in seconds (`config::Timeout`). -/
structure Timeout where
  connect : Nat
  read : Nat
  send : Nat
  deriving DecidableEq

/-- One upstream's configuration (`config::Upstream`), restricted to
the fields `upstream.rs` reads: identifier, backend node descriptors
(address with weight), selection kind, pass-host policy with optional
host, optional header overrides, optional timeout triple, optional
retries and retry timeout, optional health check block.  The
`hash_on`/`key` fields feed `request_selector_key` (outside this file's
source) and only produce the opaque selection key, so they are not
modelled. -/
structure Upstream where
  id : String
  nodes : List (String × Nat)
  selection : SelectionType
  pass_host : UpstreamPassHost
  upstream_host : Option String
  headers : Option (List (String × String))
  timeout : Option Timeout
  retries : Option Nat
  retry_timeout : Option Nat
  checks : Option HealthCheck
  deriving DecidableEq

/-- Pingora runtime settings read by `load_static_upstreams`
(`config.pingora.work_stealing`). -/
structure Pingora where
  work_stealing : Bool
  deriving DecidableEq

/-- Whole configuration (`config::Config`) as read by
`load_static_upstreams`. -/
structure Config where
  pingora : Pingora
  upstreams : List Upstream
  deriving DecidableEq

end Config

/-- Byte-level character validity in the path loop of the `http`
crate's `PathAndQuery` parser: the table of bytes that need no
percent-encoding in a path, plus the parser's extra arm accepting the
double quote and the two curly braces (code points 0x22, 0x7B, 0x7D)
for parity with permissive clients.  The two structural bytes `?` and
`#` are handled separately by the parser loop. -/
def isAllowedUriChar (c : Char) : Bool :=
  let n := c.toNat
  n == 0x21 || (0x24 ≤ n && n ≤ 0x3B) || n == 0x3D ||
    (0x40 ≤ n && n ≤ 0x5F) || (0x61 ≤ n && n ≤ 0x7A) ||
    n == 0x7C || n == 0x7E ||
    n == 0x22 || n == 0x7B || n == 0x7D

/-- Byte-level character validity in the query loop of the `http`
crate's `PathAndQuery` parser, which is broader than the path table:
0x21, 0x24 to 0x3B, 0x3D, and the whole range 0x3F to 0x7E.  The byte
`#` is handled separately by the loop. -/
def isAllowedQueryChar (c : Char) : Bool :=
  let n := c.toNat
  n == 0x21 || (0x24 ≤ n && n ≤ 0x3B) || n == 0x3D ||
    (0x3F ≤ n && n ≤ 0x7E)

/-- Query loop of `http::uri::PathAndQuery`, entered after the first
`?`: a `#` ends the scan (fragment is dropped), every other character
must be in the query byte table. -/
def queryValidAux : List Char → Bool
  | [] => true
  | c :: rest =>
    if c = '#' then true
    else if isAllowedQueryChar c then queryValidAux rest
    else false

/-- Path loop of `http::uri::PathAndQuery`: the first `?` switches to
the query loop, a `#` ends the scan (fragment is dropped), every other
character must be in the path byte table. -/
def pathAndQueryValidAux : List Char → Bool
  | [] => true
  | c :: rest =>
    if c = '?' then queryValidAux rest
    else if c = '#' then true
    else if isAllowedUriChar c then pathAndQueryValidAux rest
    else false

/-- Whether `Uri::builder().path_and_query(s).build()` succeeds, i.e.
the string parses as a URI path-and-query.  Non-ASCII characters
encode to bytes at or above 0x80, which neither byte table accepts, so
the character-level scan agrees with the byte-level one. -/
def pathAndQueryValid (s : String) : Bool :=
  pathAndQueryValidAux s.toList

/-- Token characters permitted in an HTTP header name
(`http::HeaderName`): alphanumerics plus
`! # $ % & ' * + - . ^ _ ` | ~` (given here by code point to keep the
source text plain). -/
def isHeaderNameChar (c : Char) : Bool :=
  c.isAlphanum ||
    [0x21, 0x23, 0x24, 0x25, 0x26, 0x27, 0x2A, 0x2B, 0x2D, 0x2E,
      0x5E, 0x5F, 0x60, 0x7C, 0x7E].contains c.toNat

/-- A valid HTTP header name is non-empty and made of token
characters; `http::HeaderName` construction fails otherwise. -/
def isValidHeaderName (s : String) : Bool :=
  s.length > 0 && s.toList.all isHeaderNameChar

/-- Characters permitted in an HTTP header value
(`http::HeaderValue`): horizontal tab or any character that is not a
control character (below 0x20) and not DEL. -/
def isHeaderValueChar (c : Char) : Bool :=
  c.toNat == 0x09 || (0x20 ≤ c.toNat && c.toNat != 0x7F)

/-- Whether a string is accepted as an HTTP header value by
`http::HeaderValue`. -/
def isValidHeaderValue (s : String) : Bool :=
  s.toList.all isHeaderValueChar

/-- Header names are stored lower-cased by `http::HeaderName`; header
name comparison is case-insensitive.  Lower-casing is taken character
by character over the string's character list. -/
def normalizeHeaderName (s : String) : String :=
  String.mk (s.toList.map Char.toLower)

/-- Connection options of a pingora peer
(`pingora::upstreams::peer::PeerOptions`), restricted to the fields
`upstream.rs` writes.  `verify_cert` defaults to `true` in
`PeerOptions::new`. -/
structure PeerOptions where
  connection_timeout : Option Nat := none
  read_timeout : Option Nat := none
  write_timeout : Option Nat := none
  total_connection_timeout : Option Nat := none
  verify_cert : Bool := true
  deriving DecidableEq

/-- HTTP peer descriptor (`pingora::upstreams::peer::HttpPeer`),
restricted to its options. -/
structure HttpPeer where
  options : PeerOptions
  deriving DecidableEq

/-- Basic peer used as the probe peer template of a TCP health check
(`pingora::upstreams::peer::BasicPeer`), restricted to its options. -/
structure BasicPeer where
  options : PeerOptions
  deriving DecidableEq

/-- A backend of the load balancer
(`pingora_load_balancing::Backend`): address, weight, and the opaque
extension slot, modelled as the cached `HttpPeer` it may hold. -/
structure Backend where
  addr : String
  weight : Nat
  ext : Option HttpPeer
  deriving DecidableEq

/-- A pingora request header (`pingora_http::RequestHeader`),
restricted to what `upstream.rs` touches: the request URI and the
header map.  Stored header names are normalized to lower case, as
`http::HeaderName` does. -/
structure RequestHeader where
  uri : String
  headers : List (String × String)
  deriving DecidableEq

/-- Checked header insertion (`RequestHeader::insert_header`), which
returns an error when the name or value fails `http` validation and
otherwise replaces every existing value stored under the same
(case-insensitive) name. -/
def RequestHeader.insertHeaderChecked (r : RequestHeader) (k v : String) :
    Option RequestHeader :=
  if isValidHeaderName k && isValidHeaderValue v then
    some { r with
      headers :=
        r.headers.filter (fun p => p.1 != normalizeHeaderName k) ++
          [(normalizeHeaderName k, v)] }
  else
    none

/-- Header insertion with the error discarded, matching the
`let _ = …insert_header(…)` call sites of the source: an invalid name
or value leaves the request unchanged. -/
def RequestHeader.insertHeaderLossy (r : RequestHeader) (k v : String) :
    RequestHeader :=
  (r.insertHeaderChecked k v).getD r

/-- Case-insensitive header lookup on the modelled request. -/
def RequestHeader.getHeader (r : RequestHeader) (n : String) : Option String :=
  (r.headers.find? (fun p => p.1 == normalizeHeaderName n)).map (fun p => p.2)

/-- TCP health check (`pingora_load_balancing::health_check::TcpHealthCheck`),
restricted to the fields `upstream.rs` writes. -/
structure TcpHealthCheck where
  peer_template : BasicPeer
  consecutive_success : Nat
  consecutive_failure : Nat
  deriving DecidableEq

/-- Default TCP health check (`TcpHealthCheck::new`): both thresholds
are 1 and the peer template carries default options. -/
def TcpHealthCheck.new : TcpHealthCheck :=
  { peer_template := { options := {} }
    consecutive_success := 1
    consecutive_failure := 1 }

/-- Response validator of an HTTP health check.  In the source it is an
optional closure over the configured status list that accepts a
response exactly when its status code is in the list; it is modelled by
the captured list. -/
inductive Validator where
  | statusIn (statuses : List Nat)
  deriving DecidableEq

/-- HTTP health check (`pingora_load_balancing::health_check::HttpHealthCheck`),
restricted to the fields `upstream.rs` writes. -/
structure HttpHealthCheck where
  tls : Bool
  peer_template : HttpPeer
  consecutive_success : Nat
  consecutive_failure : Nat
  req : RequestHeader
  port_override : Option Nat
  validator : Option Validator
  deriving DecidableEq

/-- Default HTTP health check (`HttpHealthCheck::new(host, tls)`): both
thresholds are 1, the probe request is `GET /` with a `Host` header,
and no validator is installed. -/
def HttpHealthCheck.new (host : String) (tls : Bool) : HttpHealthCheck :=
  { tls := tls
    peer_template := { options := {} }
    consecutive_success := 1
    consecutive_failure := 1
    req := { uri := "/", headers := [("host", host)] }
    port_override := none
    validator := none }

/-- Parsing of one configured probe request header line, as done in the
`From<config::HealthCheck> for Box<HttpHealthCheck>` loop: split at the
first colon; a line without a colon is skipped, otherwise both sides
are trimmed. -/
def splitHeaderLine (s : String) : Option (String × String) :=
  match s.splitOn ":" with
  | [] => none
  | [_] => none
  | k :: rest => some (k.trim, (String.intercalate ":" rest).trim)

/-- Construction of a TCP health check from configuration
(`From<config::HealthCheck> for Box<TcpHealthCheck>`). -/
def tcpHealthCheckFromConfig (value : Config.HealthCheck) : TcpHealthCheck :=
  let hc0 := TcpHealthCheck.new
  let hc1 := { hc0 with
    peer_template := { hc0.peer_template with
      options := { hc0.peer_template.options with
        total_connection_timeout := some value.active.timeout } } }
  let hc2 :=
    match value.active.healthy with
    | some healthy => { hc1 with consecutive_success := healthy.successes }
    | none => hc1
  match value.active.unhealthy with
  | some unhealthy => { hc2 with consecutive_failure := unhealthy.tcp_failures }
  | none => hc2

/-- The probe request header loop of the HTTP health check
construction, written as the direct recursion equivalent of the
source's `for header in value.active.req_headers.iter()` loop: each
line is split at the first colon (lines without one are skipped) and
inserted into the probe request with errors discarded. -/
def applyReqHeaders : List String → HttpHealthCheck → HttpHealthCheck
  | [], hc => hc
  | header :: rest, hc =>
    applyReqHeaders rest
      (match splitHeaderLine header with
        | some kv => { hc with req := hc.req.insertHeaderLossy kv.1 kv.2 }
        | none => hc)

/-- Construction of an HTTP health check from configuration
(`From<config::HealthCheck> for Box<HttpHealthCheck>`).  The second
component collects the warning messages the source emits via
`log::warn!` (exactly one, when the configured path is not a valid URI
path-and-query; in that case the probe request keeps the default URI). -/
def httpHealthCheckFromConfig (value : Config.HealthCheck) :
    HttpHealthCheck × List String :=
  let host := value.active.host.getD ""
  let tls := value.active.check_kind == Config.ActiveCheckType.HTTPS
  let hc0 := HttpHealthCheck.new host tls
  let hc1 := { hc0 with
    peer_template := { hc0.peer_template with
      options := { hc0.peer_template.options with
        total_connection_timeout := some value.active.timeout
        verify_cert := value.active.https_verify_certificate } } }
  let uriStep :=
    if pathAndQueryValid value.active.http_path then
      ({ hc1 with req := { hc1.req with uri := value.active.http_path } },
        ([] : List String))
    else
      (hc1,
        ["Invalid URI path provided for health check: " ++ value.active.http_path])
  let hc2 := uriStep.1
  let hc3 := applyReqHeaders value.active.req_headers hc2
  let hc4 :=
    match value.active.port with
    | some port => { hc3 with port_override := some port }
    | none => hc3
  let hc5 :=
    match value.active.healthy with
    | some healthy =>
      { hc4 with
        consecutive_success := healthy.successes
        validator :=
          if healthy.http_statuses.isEmpty then hc4.validator
          else some (.statusIn healthy.http_statuses) }
    | none => hc4
  let hc6 :=
    match value.active.unhealthy with
    | some unhealthy => { hc5 with consecutive_failure := unhealthy.http_failures }
    | none => hc5
  (hc6, uriStep.2)

/-- The boxed health check installed on the load balancer, tagged by
protocol (`From<config::HealthCheck> for Box<dyn HealthCheck>`). -/
inductive HealthCheckImpl where
  | tcp (hc : TcpHealthCheck)
  | http (hc : HttpHealthCheck)
  deriving DecidableEq

/-- Dispatch of health check construction on the configured protocol
kind, paired with the warnings logged during construction. -/
def healthCheckFromConfig (value : Config.HealthCheck) :
    HealthCheckImpl × List String :=
  match value.active.check_kind with
  | .TCP => (.tcp (tcpHealthCheckFromConfig value), [])
  | .HTTP | .HTTPS =>
    let built := httpHealthCheckFromConfig value
    (.http built.1, built.2)

/-- The pingora load balancer (`pingora_load_balancing::LoadBalancer`),
restricted to the fields `upstream.rs` writes: the optionally installed
health check and the probe frequency in seconds.  Both start out absent
in `LoadBalancer::from_backends`. -/
structure LoadBalancer where
  health_check : Option HealthCheckImpl := none
  health_check_frequency : Option Nat := none
  deriving DecidableEq

/-- A background service handle
(`pingora_core::services::Service`), restricted to what
`start_health_check` reads: its name and its optional thread count
(`GenBackgroundService` reports no thread count unless one was set, so
`background_service` yields `none`). -/
structure Service where
  name : String
  threads : Option Nat
  deriving DecidableEq

/-- The generic background service produced by
`pingora::services::background::background_service`. -/
def background_service (name : String) : Service :=
  { name := name, threads := none }

/-- The `LB` wrapper of `upstream.rs`: the load balancer plus the
not-yet-started background service. -/
structure LB where
  upstreams : LoadBalancer
  service : Option Service
  deriving DecidableEq

/-- Modelled from the spec: `HybridDiscovery` conversion lives in
`src/proxy/discovery.rs`, which is not among the given sources.  The
spec treats discovery as an external collaborator that merely supplies
the candidate backend set, so its construction is modelled as always
succeeding. -/
def hybridDiscoveryTryFrom (_upstream : Config.Upstream) : Except String Unit :=
  .ok ()

/-- Construction of `LB` from one upstream configuration
(`impl TryFrom<config::Upstream> for LB<BS>`): build discovery, build a
fresh load balancer, install the health check and probe frequency when
a `checks` block is present (frequency from the healthy block's
interval, defaulting to one second), then wrap the balancer into a
background service. -/
def LB.build (upstream : Config.Upstream) : LB :=
  let upstreams0 : LoadBalancer := {}
  let upstreams1 :=
    match upstream.checks with
    | some check =>
      let health_check := (healthCheckFromConfig check).1
      let health_check_frequency :=
        (check.active.healthy.map Config.Healthy.interval).getD 1
      { upstreams0 with
        health_check := some health_check
        health_check_frequency := some health_check_frequency }
    | none => upstreams0
  let background := background_service ("health check for " ++ upstream.id)
  { upstreams := upstreams1, service := some background }

/-- The `Result`-typed entry point of the conversion; the only fallible
step is the (externally modelled) discovery construction. -/
def LB.tryFrom (upstream : Config.Upstream) : Except String LB :=
  match hybridDiscoveryTryFrom upstream with
  | .ok _ => .ok (LB.build upstream)
  | .error e => .error e

/-- The tagged selection variant (`enum SelectionLB`); all four
variants carry an `LB` built by the same generic code. -/
inductive SelectionLB where
  | roundRobin (lb : LB)
  | random (lb : LB)
  | fnv (lb : LB)
  | ketama (lb : LB)
  deriving DecidableEq

/-- Construction of `SelectionLB` from configuration
(`impl TryFrom<config::Upstream> for SelectionLB`), dispatching on the
configured selection kind. -/
def SelectionLB.tryFrom (value : Config.Upstream) : Except String SelectionLB :=
  match value.selection with
  | .RoundRobin => (LB.tryFrom value).map SelectionLB.roundRobin
  | .Random => (LB.tryFrom value).map SelectionLB.random
  | .Fnv => (LB.tryFrom value).map SelectionLB.fnv
  | .Ketama => (LB.tryFrom value).map SelectionLB.ketama

/-- The `LB` payload common to all four variants. -/
def SelectionLB.lb : SelectionLB → LB
  | .roundRobin lb => lb
  | .random lb => lb
  | .fnv lb => lb
  | .ketama lb => lb

/-- Taking the background service out of the variant
(the body of `ProxyUpstream::take_background_service`): the service
slot is cleared and its previous content returned. -/
def SelectionLB.takeService : SelectionLB → SelectionLB × Option Service
  | .roundRobin lb => (.roundRobin { lb with service := none }, lb.service)
  | .random lb => (.random { lb with service := none }, lb.service)
  | .fnv lb => (.fnv { lb with service := none }, lb.service)
  | .ketama lb => (.ketama { lb with service := none }, lb.service)

/-- A `pingora_runtime::Runtime` as created by
`ProxyUpstream::create_runtime`, modelled by its construction
parameters. -/
structure Runtime where
  work_stealing : Bool
  threads : Nat
  name : String
  deriving DecidableEq

/-- Body of `ProxyUpstream::create_runtime`. -/
def create_runtime (work_stealing : Bool) (threads : Nat) (service_name : String) :
    Runtime :=
  { work_stealing := work_stealing, threads := threads, name := service_name }

/-- The proxy upstream (`struct ProxyUpstream`): its configuration, the
selection load balancer, and the optional background runtime and watch
sender of the health check service.  The watch sender is modelled by
the value it currently holds (`watch::channel(false)`). -/
structure ProxyUpstream where
  inner : Config.Upstream
  lb : SelectionLB
  runtime : Option Runtime
  watch : Option Bool
  deriving DecidableEq

/-- `ProxyUpstream::take_background_service`. -/
def ProxyUpstream.take_background_service (pu : ProxyUpstream) :
    ProxyUpstream × Option Service :=
  let taken := pu.lb.takeService
  ({ pu with lb := taken.1 }, taken.2)

/-- `ProxyUpstream::start_health_check`: when a background service is
present it is taken, a watch channel holding `false` is created, a
runtime with the service's thread count (default 1) is spun up to run
the service, and both are stored on the upstream. -/
def ProxyUpstream.start_health_check (pu : ProxyUpstream) (work_stealing : Bool) :
    ProxyUpstream :=
  match pu.take_background_service with
  | (pu1, some service) =>
    let threads := service.threads.getD 1
    let runtime := create_runtime work_stealing threads service.name
    { pu1 with watch := some false, runtime := some runtime }
  | (pu1, none) => pu1

/-- `ProxyUpstream::new_with_health_check`: build the selection load
balancer from the configuration, then start the health check service. -/
def ProxyUpstream.new_with_health_check (upstream : Config.Upstream)
    (work_stealing : Bool) : Except String ProxyUpstream := do
  let lb ← SelectionLB.tryFrom upstream
  let proxy_upstream : ProxyUpstream :=
    { inner := upstream, lb := lb, runtime := none, watch := none }
  .ok (proxy_upstream.start_health_check work_stealing)

/-- `ProxyUpstream::set_timeout`: when the configuration carries a
timeout triple, the peer's connection, read and write timeouts are set
to the configured second counts; otherwise the peer is untouched. -/
def ProxyUpstream.set_timeout (pu : ProxyUpstream) (p : HttpPeer) : HttpPeer :=
  match pu.inner.timeout with
  | some t =>
    { p with options := { p.options with
        connection_timeout := some t.connect
        read_timeout := some t.read
        write_timeout := some t.send } }
  | none => p

/-- Post-processing applied by `ProxyUpstream::select_backend` to the
backend chosen by the strategy.  The raw choice made by
`lb.upstreams.select(key, 256)` happens inside `pingora_load_balancing`
(outside these sources) and is passed in as `selected`; the body
models lines 126-132 of the source: when the chosen backend's
extension slot holds an `HttpPeer`, the upstream's timeouts are applied
to it. -/
def ProxyUpstream.select_backend (pu : ProxyUpstream) (selected : Option Backend) :
    Option Backend :=
  match selected with
  | some backend =>
    match backend.ext with
    | some peer => some { backend with ext := some (pu.set_timeout peer) }
    | none => some backend
  | none => none

/-- `ProxyUpstream::upstream_host_rewrite`: under the `REWRITE`
pass-host policy with a configured host, the `Host` header is replaced
via `insert_header(..).unwrap()`; the `unwrap` panics when the host is
not a valid header value, which is modelled by `none`.  Under the
`PASS` policy or without a configured host the request is returned
unchanged. -/
def ProxyUpstream.upstream_host_rewrite (pu : ProxyUpstream)
    (upstream_request : RequestHeader) : Option RequestHeader :=
  if pu.inner.pass_host = Config.UpstreamPassHost.REWRITE then
    match pu.inner.upstream_host with
    | some host => upstream_request.insertHeaderChecked "host" host
    | none => some upstream_request
  else
    some upstream_request

/-- The loop body of `ProxyUpstream::upstream_header_rewrite`, written
as the direct recursion equivalent of the source's `for (key, value)`
loop: each configured override is inserted with errors discarded. -/
def applyHeaderOverrides : List (String × String) → RequestHeader → RequestHeader
  | [], req => req
  | kv :: rest, req => applyHeaderOverrides rest (req.insertHeaderLossy kv.1 kv.2)

/-- `ProxyUpstream::upstream_header_rewrite`: every configured header
override is inserted into the outgoing request in order, each insertion
error being discarded (`let _ = …`). -/
def ProxyUpstream.upstream_header_rewrite (pu : ProxyUpstream)
    (upstream_request : RequestHeader) : RequestHeader :=
  applyHeaderOverrides (pu.inner.headers.getD []) upstream_request

/-- `ProxyUpstream::get_retries`. -/
def ProxyUpstream.get_retries (pu : ProxyUpstream) : Option Nat :=
  pu.inner.retries

/-- `ProxyUpstream::get_retry_timeout`. -/
def ProxyUpstream.get_retry_timeout (pu : ProxyUpstream) : Option Nat :=
  pu.inner.retry_timeout

/-- Outcome of `load_static_upstreams`: `exited code` models
`std::process::exit(code)` reached on an upstream with an empty node
list; `failed` models an `Err` propagated out of the collection;
`loaded units` models a normal return, after which
`UPSTREAM_MAP.reload_resources(units)` installs exactly these units in
the global registry. -/
inductive LoadOutcome where
  | exited (code : Nat)
  | failed (err : String)
  | loaded (upstreams : List ProxyUpstream)
  deriving DecidableEq

/-- The sequential drive of the `map`/`collect::<Result<Vec<_>>>`
pipeline of `load_static_upstreams`: upstreams are processed in
configuration order, the first empty-node upstream terminates the
process with exit code 1, and the first construction error aborts the
collection. -/
def loadStaticUpstreamsGo (work_stealing : Bool) :
    List Config.Upstream → List ProxyUpstream → LoadOutcome
  | [], acc => .loaded acc.reverse
  | upstream :: rest, acc =>
    if upstream.nodes.isEmpty then
      .exited 1
    else
      match ProxyUpstream.new_with_health_check upstream work_stealing with
      | .ok proxy_upstream =>
        loadStaticUpstreamsGo work_stealing rest (proxy_upstream :: acc)
      | .error e => .failed e

/-- `load_static_upstreams`. -/
def load_static_upstreams (config : Config.Config) : LoadOutcome :=
  loadStaticUpstreamsGo config.pingora.work_stealing config.upstreams []

/-- The variant actually produced by `SelectionLB::try_from` for a
given configuration (used to state that construction always succeeds
in this model). -/
def SelectionLB.build (upstream : Config.Upstream) : SelectionLB :=
  match upstream.selection with
  | .RoundRobin => .roundRobin (LB.build upstream)
  | .Random => .random (LB.build upstream)
  | .Fnv => .fnv (LB.build upstream)
  | .Ketama => .ketama (LB.build upstream)

theorem SelectionLB.tryFrom_eq (upstream : Config.Upstream) :
    SelectionLB.tryFrom upstream = .ok (SelectionLB.build upstream) := by
  cases h : upstream.selection <;>
    simp [SelectionLB.tryFrom, SelectionLB.build, LB.tryFrom,
      hybridDiscoveryTryFrom, h, Except.map]

theorem SelectionLB.build_lb (upstream : Config.Upstream) :
    (SelectionLB.build upstream).lb = LB.build upstream := by
  cases h : upstream.selection <;> simp [SelectionLB.build, SelectionLB.lb, h]

theorem SelectionLB.build_takeService (upstream : Config.Upstream) :
    ((SelectionLB.build upstream).takeService).2 =
      some (background_service ("health check for " ++ upstream.id)) ∧
    ((SelectionLB.build upstream).takeService).1.lb.upstreams =
      (LB.build upstream).upstreams := by
  cases h : upstream.selection <;>
    simp [SelectionLB.build, SelectionLB.takeService, SelectionLB.lb, h, LB.build,
      background_service]

theorem find?_filter_of_imp {α : Type} (l : List α) (p q : α → Bool)
    (h : ∀ x, p x = true → q x = true) :
    (l.filter q).find? p = l.find? p := by
  induction l with
  | nil => rfl
  | cons a t ih =>
    by_cases hq : q a = true
    · rw [List.filter_cons_of_pos hq]
      by_cases hp : p a = true
      · rw [List.find?_cons_of_pos _ hp, List.find?_cons_of_pos _ hp]
      · have hp2 : ¬p a = true := hp
        rw [List.find?_cons_of_neg _ hp2, List.find?_cons_of_neg _ hp2, ih]
    · have hp : ¬p a = true := fun hpa => hq (h a hpa)
      rw [List.filter_cons_of_neg hq, List.find?_cons_of_neg _ hp, ih]

theorem RequestHeader.insertHeaderLossy_uri (r : RequestHeader) (k v : String) :
    (r.insertHeaderLossy k v).uri = r.uri := by
  simp only [RequestHeader.insertHeaderLossy, RequestHeader.insertHeaderChecked]
  split <;> rfl

theorem RequestHeader.getHeader_insertHeaderChecked (r r2 : RequestHeader)
    (k v : String) (h : r.insertHeaderChecked k v = some r2) :
    r2.getHeader k = some v := by
  unfold RequestHeader.insertHeaderChecked at h
  split at h
  · injection h with h
    subst h
    unfold RequestHeader.getHeader
    simp only
    rw [List.find?_append]
    have hnone : (r.headers.filter
        (fun p => p.1 != normalizeHeaderName k)).find?
        (fun p => p.1 == normalizeHeaderName k) = none := by
      rw [List.find?_eq_none]
      intro x hx
      have hmem := List.of_mem_filter hx
      simp only [bne_iff_ne, ne_eq] at hmem
      simp [hmem]
    rw [hnone, Option.none_or]
    simp [List.find?]
  · cases h

theorem RequestHeader.getHeader_insertLossy_ne (r : RequestHeader) (k v n : String)
    (h : normalizeHeaderName k ≠ normalizeHeaderName n) :
    (r.insertHeaderLossy k v).getHeader n = r.getHeader n := by
  unfold RequestHeader.insertHeaderLossy RequestHeader.insertHeaderChecked
  split
  · simp only [Option.getD_some]
    unfold RequestHeader.getHeader
    simp only
    rw [List.find?_append]
    have hsing : List.find? (fun p => p.1 == normalizeHeaderName n)
        [(normalizeHeaderName k, v)] = none := by
      simp [h]
    rw [hsing, Option.or_none]
    rw [find?_filter_of_imp]
    intro x hx
    simp only [beq_iff_eq] at hx
    simp only [hx, bne_iff_ne, ne_eq]
    exact fun hc => h hc.symm
  · simp [Option.getD]

theorem RequestHeader.getHeader_insertLossy_self (r : RequestHeader) (k v : String)
    (hk : isValidHeaderName k = true) (hv : isValidHeaderValue v = true) :
    (r.insertHeaderLossy k v).getHeader k = some v := by
  have h : r.insertHeaderChecked k v =
      some { r with headers :=
        r.headers.filter (fun p => p.1 != normalizeHeaderName k) ++
          [(normalizeHeaderName k, v)] } := by
    unfold RequestHeader.insertHeaderChecked
    simp [hk, hv]
  have hget := RequestHeader.getHeader_insertHeaderChecked r _ k v h
  unfold RequestHeader.insertHeaderLossy
  rw [h]
  simpa using hget

theorem applyHeaderOverrides_getHeader_ne (l : List (String × String))
    (req : RequestHeader) (n : String)
    (h : ∀ kv ∈ l, normalizeHeaderName kv.1 ≠ normalizeHeaderName n) :
    (applyHeaderOverrides l req).getHeader n = req.getHeader n := by
  induction l generalizing req with
  | nil => rfl
  | cons kv rest ih =>
    rw [applyHeaderOverrides]
    rw [ih _ (fun x hx => h x (List.mem_cons_of_mem kv hx))]
    exact RequestHeader.getHeader_insertLossy_ne req kv.1 kv.2 n
      (h kv (List.mem_cons_self kv rest))

theorem applyReqHeaders_fields (headers : List String) (hc : HttpHealthCheck) :
    (applyReqHeaders headers hc).tls = hc.tls ∧
    (applyReqHeaders headers hc).peer_template = hc.peer_template ∧
    (applyReqHeaders headers hc).consecutive_success = hc.consecutive_success ∧
    (applyReqHeaders headers hc).consecutive_failure = hc.consecutive_failure ∧
    (applyReqHeaders headers hc).port_override = hc.port_override ∧
    (applyReqHeaders headers hc).validator = hc.validator ∧
    (applyReqHeaders headers hc).req.uri = hc.req.uri := by
  induction headers generalizing hc with
  | nil => exact ⟨rfl, rfl, rfl, rfl, rfl, rfl, rfl⟩
  | cons header rest ih =>
    rw [applyReqHeaders]
    cases h : splitHeaderLine header with
    | none => simpa [h] using ih hc
    | some kv =>
      simp only [h]
      have hstep := ih { hc with req := hc.req.insertHeaderLossy kv.1 kv.2 }
      simpa [RequestHeader.insertHeaderLossy_uri] using hstep

theorem applyReqHeaders_tls (headers : List String) (hc : HttpHealthCheck) :
    (applyReqHeaders headers hc).tls = hc.tls :=
  (applyReqHeaders_fields headers hc).1

theorem applyReqHeaders_peer_template (headers : List String) (hc : HttpHealthCheck) :
    (applyReqHeaders headers hc).peer_template = hc.peer_template :=
  (applyReqHeaders_fields headers hc).2.1

theorem applyReqHeaders_consecutive_success (headers : List String)
    (hc : HttpHealthCheck) :
    (applyReqHeaders headers hc).consecutive_success = hc.consecutive_success :=
  (applyReqHeaders_fields headers hc).2.2.1

theorem applyReqHeaders_consecutive_failure (headers : List String)
    (hc : HttpHealthCheck) :
    (applyReqHeaders headers hc).consecutive_failure = hc.consecutive_failure :=
  (applyReqHeaders_fields headers hc).2.2.2.1

theorem applyReqHeaders_port_override (headers : List String) (hc : HttpHealthCheck) :
    (applyReqHeaders headers hc).port_override = hc.port_override :=
  (applyReqHeaders_fields headers hc).2.2.2.2.1

theorem applyReqHeaders_req_uri (headers : List String) (hc : HttpHealthCheck) :
    (applyReqHeaders headers hc).req.uri = hc.req.uri :=
  (applyReqHeaders_fields headers hc).2.2.2.2.2.2

theorem RequestHeader.insertHeaderChecked_eq_lossy (r : RequestHeader) (k v : String)
    (hk : isValidHeaderName k = true) (hv : isValidHeaderValue v = true) :
    r.insertHeaderChecked k v = some (r.insertHeaderLossy k v) := by
  unfold RequestHeader.insertHeaderLossy RequestHeader.insertHeaderChecked
  simp [hk, hv]

theorem applyHeaderOverrides_getHeader_mem (l : List (String × String))
    (req : RequestHeader) (kv : String × String) (hmem : kv ∈ l)
    (hnodup : l.Pairwise
      (fun a b => normalizeHeaderName a.1 ≠ normalizeHeaderName b.1))
    (hk : isValidHeaderName kv.1 = true) (hv : isValidHeaderValue kv.2 = true) :
    (applyHeaderOverrides l req).getHeader kv.1 = some kv.2 := by
  revert hmem hnodup
  induction l generalizing req with
  | nil => intro hmem _; cases hmem
  | cons a rest ih =>
    intro hmem hnodup
    rw [applyHeaderOverrides]
    rcases List.mem_cons.mp hmem with heq | hmem2
    · subst heq
      rw [applyHeaderOverrides_getHeader_ne rest _ kv.1
        (fun x hx => ((List.pairwise_cons.mp hnodup).1 x hx).symm)]
      exact RequestHeader.getHeader_insertLossy_self req kv.1 kv.2 hk hv
    · exact ih _ hmem2 (List.pairwise_cons.mp hnodup).2

/-- A minimal upstream configuration serving as a concrete evaluation
point for the theorems below. -/
def sampleUpstream : Config.Upstream :=
  { id := "web"
    nodes := [("127.0.0.1:8080", 1)]
    selection := Config.SelectionType.RoundRobin
    pass_host := Config.UpstreamPassHost.PASS
    upstream_host := none
    headers := none
    timeout := none
    retries := none
    retry_timeout := none
    checks := none }

/-- A concrete healthy block: probe every 5 seconds, flip healthy after
2 consecutive successes, accept statuses 200 and 201. -/
def sampleHealthy : Config.Healthy :=
  { interval := 5, successes := 2, http_statuses := [200, 201] }

/-- A concrete unhealthy block: 3 consecutive TCP failures or 4
consecutive HTTP failures flip a backend unhealthy. -/
def sampleUnhealthy : Config.Unhealthy :=
  { tcp_failures := 3, http_failures := 4 }

/-- A concrete HTTP health check block with a well-formed probe path. -/
def sampleHttpCheck : Config.HealthCheck :=
  { active :=
    { check_kind := Config.ActiveCheckType.HTTP
      timeout := 2
      http_path := "/health"
      host := some "example.com"
      port := some 8080
      https_verify_certificate := false
      req_headers := ["X-Probe: on"]
      healthy := some sampleHealthy
      unhealthy := some sampleUnhealthy } }

/-- The minimal upstream with the concrete HTTP health check attached. -/
def sampleUpstreamWithCheck : Config.Upstream :=
  { sampleUpstream with checks := some sampleHttpCheck }

/-- A concrete incoming request already carrying an `x-env` header. -/
def sampleReq : RequestHeader :=
  { uri := "/", headers := [("x-env", "staging"), ("accept", "text/html")] }

/-- C5: for every name-value pair of the upstream's configured header
mutation set (pairwise-distinct names, each a valid header name with a
valid value, as an already-validated configuration guarantees),
`upstream_header_rewrite` sets that header of the outgoing request to
the configured value, overriding any value the request already carried;
header names not named in the configuration keep their previous value. -/
theorem C5_header_override (pu : ProxyUpstream) (req : RequestHeader)
    (hdrs : List (String × String)) (hcfg : pu.inner.headers = some hdrs)
    (hnodup : hdrs.Pairwise
      (fun a b => normalizeHeaderName a.1 ≠ normalizeHeaderName b.1)) :
    (∀ kv ∈ hdrs, isValidHeaderName kv.1 = true → isValidHeaderValue kv.2 = true →
      (pu.upstream_header_rewrite req).getHeader kv.1 = some kv.2) ∧
    (∀ n, (∀ kv ∈ hdrs, normalizeHeaderName kv.1 ≠ normalizeHeaderName n) →
      (pu.upstream_header_rewrite req).getHeader n = req.getHeader n) := by
  unfold ProxyUpstream.upstream_header_rewrite
  rw [hcfg]
  constructor
  · intro kv hmem hk hv
    exact applyHeaderOverrides_getHeader_mem hdrs req kv hmem hnodup hk hv
  · intro n hn
    exact applyHeaderOverrides_getHeader_ne hdrs req n hn

/-- The sample upstream with one configured header override,
`X-Env: prod`. -/
def sampleUpstreamHeaders : Config.Upstream :=
  { sampleUpstream with headers := some [("X-Env", "prod")] }

/-- A proxy upstream built over the header-override sample. -/
def samplePuHeaders : ProxyUpstream :=
  { inner := sampleUpstreamHeaders
    lb := SelectionLB.build sampleUpstreamHeaders
    runtime := none
    watch := none }

theorem C5_witness :
    samplePuHeaders.inner.headers = some [("X-Env", "prod")] ∧
    sampleReq.getHeader "X-Env" = some "staging" ∧
    (samplePuHeaders.upstream_header_rewrite sampleReq).getHeader "X-Env" =
      some "prod" :=
  ⟨rfl, by decide,
    (C5_header_override samplePuHeaders sampleReq [("X-Env", "prod")] rfl
        (by simp)).1
      ("X-Env", "prod") (by simp) (by decide) (by decide)⟩

/-- C6: `upstream_host_rewrite` replaces the request's `Host` header
with the configured upstream host when the pass-host policy is
`REWRITE` and a (valid) host string is configured; under the `PASS`
policy, or when no host string is configured, the request headers are
returned unchanged. -/
theorem C6_host_rewrite (pu : ProxyUpstream) (req : RequestHeader) :
    (∀ host, pu.inner.pass_host = Config.UpstreamPassHost.REWRITE →
      pu.inner.upstream_host = some host →
      isValidHeaderValue host = true →
      pu.upstream_host_rewrite req = some (req.insertHeaderLossy "host" host) ∧
      (req.insertHeaderLossy "host" host).getHeader "host" = some host) ∧
    (pu.inner.pass_host = Config.UpstreamPassHost.PASS →
      pu.upstream_host_rewrite req = some req) ∧
    (pu.inner.upstream_host = none →
      pu.upstream_host_rewrite req = some req) := by
  refine ⟨?_, ?_, ?_⟩
  · intro host hpass hhost hvalid
    constructor
    · unfold ProxyUpstream.upstream_host_rewrite
      rw [hpass, hhost]
      simp only [if_pos rfl]
      exact RequestHeader.insertHeaderChecked_eq_lossy req "host" host
        (by decide) hvalid
    · exact RequestHeader.getHeader_insertLossy_self req "host" host
        (by decide) hvalid
  · intro hpass
    unfold ProxyUpstream.upstream_host_rewrite
    rw [hpass]
    simp
  · intro hnone
    cases hpass : pu.inner.pass_host <;>
      simp [ProxyUpstream.upstream_host_rewrite, hpass, hnone]

/-- The sample upstream with the rewrite pass-host policy and a
configured host. -/
def sampleUpstreamRewrite : Config.Upstream :=
  { sampleUpstream with
    pass_host := Config.UpstreamPassHost.REWRITE
    upstream_host := some "internal.example.com" }

/-- A proxy upstream built over the host-rewrite sample. -/
def samplePuRewrite : ProxyUpstream :=
  { inner := sampleUpstreamRewrite
    lb := SelectionLB.build sampleUpstreamRewrite
    runtime := none
    watch := none }

theorem C6_witness :
    samplePuRewrite.inner.pass_host = Config.UpstreamPassHost.REWRITE ∧
    samplePuRewrite.inner.upstream_host = some "internal.example.com" ∧
    isValidHeaderValue "internal.example.com" = true ∧
    samplePuRewrite.upstream_host_rewrite sampleReq =
      some (sampleReq.insertHeaderLossy "host" "internal.example.com") ∧
    (sampleReq.insertHeaderLossy "host" "internal.example.com").getHeader "host" =
      some "internal.example.com" :=
  ⟨rfl, rfl, by decide,
    ((C6_host_rewrite samplePuRewrite sampleReq).1 "internal.example.com"
        rfl rfl (by decide)).1,
    ((C6_host_rewrite samplePuRewrite sampleReq).1 "internal.example.com"
        rfl rfl (by decide)).2⟩

/-- C7: for every upstream configuration that supplies a health-check
block, the probe frequency installed on the load balancer is the
interval (in seconds) of the configuration's healthy block, and it
defaults to one second when no healthy block is given. -/
theorem C7_probe_interval (upstream : Config.Upstream)
    (check : Config.HealthCheck) (h : upstream.checks = some check) :
    (LB.tryFrom upstream).map (fun lb => lb.upstreams.health_check_frequency) =
      .ok (some ((check.active.healthy.map Config.Healthy.interval).getD 1)) := by
  simp [LB.tryFrom, hybridDiscoveryTryFrom, LB.build, h, Except.map]

theorem C7_witness :
    sampleUpstreamWithCheck.checks = some sampleHttpCheck ∧
    (LB.tryFrom sampleUpstreamWithCheck).map
        (fun lb => lb.upstreams.health_check_frequency) = .ok (some 5) :=
  ⟨rfl, C7_probe_interval sampleUpstreamWithCheck sampleHttpCheck rfl⟩

/-- C8: the TCP health check takes its consecutive-failure threshold
from the configuration's unhealthy `tcp_failures` field, the HTTP
health check takes its consecutive-failure threshold from the unhealthy
`http_failures` field, and both take their consecutive-success
threshold from the healthy `successes` field. -/
theorem C8_thresholds (value : Config.HealthCheck) (healthy : Config.Healthy)
    (unhealthy : Config.Unhealthy)
    (hh : value.active.healthy = some healthy)
    (hu : value.active.unhealthy = some unhealthy) :
    (tcpHealthCheckFromConfig value).consecutive_failure = unhealthy.tcp_failures ∧
    (httpHealthCheckFromConfig value).1.consecutive_failure = unhealthy.http_failures ∧
    (tcpHealthCheckFromConfig value).consecutive_success = healthy.successes ∧
    (httpHealthCheckFromConfig value).1.consecutive_success = healthy.successes := by
  refine ⟨?_, ?_, ?_, ?_⟩
  · simp [tcpHealthCheckFromConfig, hh, hu]
  · simp [httpHealthCheckFromConfig, hh, hu]
  · simp [tcpHealthCheckFromConfig, hh, hu]
  · simp [httpHealthCheckFromConfig, hh, hu]

theorem C8_witness :
    sampleHttpCheck.active.healthy = some sampleHealthy ∧
    sampleHttpCheck.active.unhealthy = some sampleUnhealthy ∧
    ((tcpHealthCheckFromConfig sampleHttpCheck).consecutive_failure = 3 ∧
      (httpHealthCheckFromConfig sampleHttpCheck).1.consecutive_failure = 4 ∧
      (tcpHealthCheckFromConfig sampleHttpCheck).consecutive_success = 2 ∧
      (httpHealthCheckFromConfig sampleHttpCheck).1.consecutive_success = 2) :=
  ⟨rfl, rfl, C8_thresholds sampleHttpCheck sampleHealthy sampleUnhealthy rfl rfl⟩

/-- C9: whenever `select_backend` returns a backend whose extension
slot holds a cached `HttpPeer`, the peer in the returned backend is the
cached peer with `set_timeout` applied: if the upstream configuration
supplies a timeout triple, the peer's connection, read and write
timeouts equal the configured second counts, and if no triple is
configured the peer is returned unchanged. -/
theorem C9_select_backend_timeouts (pu : ProxyUpstream) (backend : Backend)
    (peer : HttpPeer) (hext : backend.ext = some peer) :
    pu.select_backend (some backend) =
      some { backend with ext := some (pu.set_timeout peer) } ∧
    (∀ t, pu.inner.timeout = some t →
      (pu.set_timeout peer).options.connection_timeout = some t.connect ∧
      (pu.set_timeout peer).options.read_timeout = some t.read ∧
      (pu.set_timeout peer).options.write_timeout = some t.send) ∧
    (pu.inner.timeout = none → pu.set_timeout peer = peer) := by
  refine ⟨?_, ?_, ?_⟩
  · simp [ProxyUpstream.select_backend, hext]
  · intro t ht
    simp [ProxyUpstream.set_timeout, ht]
  · intro ht
    simp [ProxyUpstream.set_timeout, ht]

/-- A concrete cached peer with default options. -/
def samplePeer : HttpPeer := { options := {} }

/-- A concrete backend caching the sample peer in its extension slot. -/
def sampleBackend : Backend :=
  { addr := "127.0.0.1:8080", weight := 1, ext := some samplePeer }

/-- The sample upstream with a configured timeout triple of 3, 4 and 5
seconds. -/
def sampleUpstreamTimeout : Config.Upstream :=
  { sampleUpstream with timeout := some { connect := 3, read := 4, send := 5 } }

/-- A proxy upstream built over the timeout sample. -/
def samplePuTimeout : ProxyUpstream :=
  { inner := sampleUpstreamTimeout
    lb := SelectionLB.build sampleUpstreamTimeout
    runtime := none
    watch := none }

theorem C9_witness :
    sampleBackend.ext = some samplePeer ∧
    samplePuTimeout.inner.timeout = some { connect := 3, read := 4, send := 5 } ∧
    samplePuTimeout.select_backend (some sampleBackend) =
      some { sampleBackend with ext := some (samplePuTimeout.set_timeout samplePeer) } ∧
    (samplePuTimeout.set_timeout samplePeer).options.connection_timeout = some 3 ∧
    (samplePuTimeout.set_timeout samplePeer).options.read_timeout = some 4 ∧
    (samplePuTimeout.set_timeout samplePeer).options.write_timeout = some 5 :=
  have h := C9_select_backend_timeouts samplePuTimeout sampleBackend samplePeer rfl
  ⟨rfl, rfl, h.1, (h.2.1 _ rfl).1, (h.2.1 _ rfl).2.1, (h.2.1 _ rfl).2.2⟩

theorem new_with_health_check_eq (upstream : Config.Upstream) (work_stealing : Bool) :
    ProxyUpstream.new_with_health_check upstream work_stealing =
      .ok (ProxyUpstream.start_health_check
        { inner := upstream
          lb := SelectionLB.build upstream
          runtime := none
          watch := none } work_stealing) := by
  unfold ProxyUpstream.new_with_health_check
  rw [SelectionLB.tryFrom_eq]
  rfl

theorem start_health_check_inner (pu : ProxyUpstream) (work_stealing : Bool) :
    (pu.start_health_check work_stealing).inner = pu.inner := by
  unfold ProxyUpstream.start_health_check ProxyUpstream.take_background_service
  cases hsvc : pu.lb.takeService.2 <;> simp [hsvc]

/-- C1 (amended): for every `ProxyUpstream` produced by
`new_with_health_check`, a health probe engine (a health check
installed on the load balancer) exists if and only if the configuration
supplied a checks block; the background runtime and the watch channel,
however, exist unconditionally, because `LB::try_from` wraps every load
balancer in a background service whether or not checks are configured,
and `start_health_check` always finds and starts that service.  In
particular an upstream configured without checks still owns a
background runtime. -/
theorem C1_engine_iff_checks (upstream : Config.Upstream) (work_stealing : Bool)
    (pu : ProxyUpstream)
    (h : ProxyUpstream.new_with_health_check upstream work_stealing = .ok pu) :
    pu.lb.lb.upstreams.health_check.isSome = upstream.checks.isSome ∧
    pu.runtime.isSome = true ∧
    pu.watch.isSome = true := by
  rw [new_with_health_check_eq] at h
  injection h with h
  subst h
  cases hsel : upstream.selection <;> cases hchecks : upstream.checks <;>
    simp [ProxyUpstream.start_health_check, ProxyUpstream.take_background_service,
      SelectionLB.build, SelectionLB.takeService, SelectionLB.lb, LB.build,
      background_service, hsel, hchecks]

theorem C1_witness :
    sampleUpstream.checks = none ∧
    ProxyUpstream.new_with_health_check sampleUpstream false =
      .ok (ProxyUpstream.start_health_check
        { inner := sampleUpstream
          lb := SelectionLB.build sampleUpstream
          runtime := none
          watch := none } false) ∧
    ((ProxyUpstream.start_health_check
        { inner := sampleUpstream
          lb := SelectionLB.build sampleUpstream
          runtime := none
          watch := none } false).lb.lb.upstreams.health_check.isSome =
      sampleUpstream.checks.isSome ∧
    (ProxyUpstream.start_health_check
        { inner := sampleUpstream
          lb := SelectionLB.build sampleUpstream
          runtime := none
          watch := none } false).runtime.isSome = true ∧
    (ProxyUpstream.start_health_check
        { inner := sampleUpstream
          lb := SelectionLB.build sampleUpstream
          runtime := none
          watch := none } false).watch.isSome = true) :=
  ⟨rfl, rfl, C1_engine_iff_checks sampleUpstream false _ rfl⟩

/-- C1 counterexample: the sample upstream carries no checks block, yet
the proxy upstream built from it owns a background runtime and a watch
channel, so a lifecycle controller exists without a health probe
engine, contrary to the claimed equivalence. -/
theorem C1_counterexample :
    (ProxyUpstream.new_with_health_check sampleUpstream false).map
        (fun pu => (pu.inner.checks.isSome, pu.runtime.isSome, pu.watch.isSome)) =
      .ok (false, true, true) := rfl

theorem loadGo_exits (work_stealing : Bool) (u : Config.Upstream)
    (hempty : u.nodes = []) :
    ∀ (l : List Config.Upstream) (acc : List ProxyUpstream), u ∈ l →
      loadStaticUpstreamsGo work_stealing l acc = .exited 1 := by
  intro l
  induction l with
  | nil => intro acc hmem; cases hmem
  | cons a rest ih =>
    intro acc hmem
    rw [loadStaticUpstreamsGo]
    rcases List.mem_cons.mp hmem with heq | hmem2
    · subst heq
      simp [hempty]
    · by_cases hae : a.nodes.isEmpty = true
      · rw [if_pos hae]
      · rw [if_neg hae, new_with_health_check_eq]
        exact ih _ hmem2

theorem loadGo_loaded_nodes (work_stealing : Bool) :
    ∀ (l : List Config.Upstream) (acc units : List ProxyUpstream),
      (∀ pu ∈ acc, pu.inner.nodes ≠ []) →
      loadStaticUpstreamsGo work_stealing l acc = .loaded units →
      ∀ pu ∈ units, pu.inner.nodes ≠ [] := by
  intro l
  induction l with
  | nil =>
    intro acc units hacc hgo pu hpu
    rw [loadStaticUpstreamsGo] at hgo
    injection hgo with hgo
    subst hgo
    exact hacc pu (List.mem_reverse.mp hpu)
  | cons a rest ih =>
    intro acc units hacc hgo pu hpu
    rw [loadStaticUpstreamsGo] at hgo
    by_cases hae : a.nodes.isEmpty = true
    · rw [if_pos hae] at hgo
      cases hgo
    · rw [if_neg hae, new_with_health_check_eq] at hgo
      refine ih _ _ ?_ hgo pu hpu
      intro pu2 hpu2
      rcases List.mem_cons.mp hpu2 with heq | hmem
      · subst heq
        rw [start_health_check_inner]
        intro hnil
        have hnil2 : a.nodes = [] := hnil
        exact hae (by simp [hnil2])
      · exact hacc _ hmem

/-- C2: for every configuration in which some upstream declares an
empty backend node list, `load_static_upstreams` terminates the process
via `std::process::exit(1)` (a non-zero exit code) and in particular
never reaches the registry reload, so no upstream unit with zero
backends is ever registered. -/
theorem C2_zero_nodes (config : Config.Config) (u : Config.Upstream)
    (hmem : u ∈ config.upstreams) (hempty : u.nodes = []) :
    load_static_upstreams config = .exited 1 ∧
    ∀ units, load_static_upstreams config = .loaded units →
      ∀ pu ∈ units, pu.inner.nodes ≠ [] := by
  have hmain : load_static_upstreams config = .exited 1 :=
    loadGo_exits config.pingora.work_stealing u hempty config.upstreams [] hmem
  refine ⟨hmain, fun units hl pu hpu => ?_⟩
  rw [hmain] at hl
  cases hl

/-- The sample upstream with its node list emptied. -/
def sampleUpstreamNoNodes : Config.Upstream :=
  { sampleUpstream with id := "empty", nodes := [] }

/-- A configuration holding one well-formed upstream followed by one
with an empty node list. -/
def sampleConfigEmptyNodes : Config.Config :=
  { pingora := { work_stealing := true }
    upstreams := [sampleUpstream, sampleUpstreamNoNodes] }

theorem C2_witness :
    sampleUpstreamNoNodes ∈ sampleConfigEmptyNodes.upstreams ∧
    sampleUpstreamNoNodes.nodes = [] ∧
    load_static_upstreams sampleConfigEmptyNodes = .exited 1 :=
  ⟨by decide, rfl,
    (C2_zero_nodes sampleConfigEmptyNodes sampleUpstreamNoNodes
        (by decide) rfl).1⟩

/-- C3 (amended): for every upstream whose HTTP or HTTPS health-check
configuration carries a path that is not a valid URI path-and-query,
construction logs a warning and leaves the probe request at the default
URI `/` instead of the configured path; the health check itself remains
installed and active (it is not disabled), and `new_with_health_check`
still returns Ok, so the upstream is usable. -/
theorem C3_invalid_uri_keeps_check (upstream : Config.Upstream)
    (check : Config.HealthCheck) (work_stealing : Bool)
    (hcheck : upstream.checks = some check)
    (hkind : check.active.check_kind = Config.ActiveCheckType.HTTP ∨
      check.active.check_kind = Config.ActiveCheckType.HTTPS)
    (hbad : pathAndQueryValid check.active.http_path = false) :
    (httpHealthCheckFromConfig check).2 =
      ["Invalid URI path provided for health check: " ++ check.active.http_path] ∧
    (httpHealthCheckFromConfig check).1.req.uri = "/" ∧
    (ProxyUpstream.new_with_health_check upstream work_stealing).map
        (fun pu => pu.lb.lb.upstreams.health_check) =
      .ok (some (HealthCheckImpl.http (httpHealthCheckFromConfig check).1)) := by
  refine ⟨?_, ?_, ?_⟩
  · simp [httpHealthCheckFromConfig, hbad]
  · cases hh : check.active.healthy <;> cases hu : check.active.unhealthy <;>
      cases hp : check.active.port <;>
        simp [httpHealthCheckFromConfig, hbad, applyReqHeaders_req_uri,
          HttpHealthCheck.new, hh, hu, hp]
  · rw [new_with_health_check_eq]
    cases hsel : upstream.selection <;>
      rcases hkind with hk | hk <;>
        simp [ProxyUpstream.start_health_check,
          ProxyUpstream.take_background_service, SelectionLB.build,
          SelectionLB.takeService, SelectionLB.lb, LB.build,
          healthCheckFromConfig, background_service, hcheck, hsel, hk,
          Except.map]

/-- An HTTP health check block whose probe path contains a space and
therefore fails URI parsing. -/
def sampleBadUriCheck : Config.HealthCheck :=
  { active :=
    { check_kind := Config.ActiveCheckType.HTTP
      timeout := 2
      http_path := "/bad path"
      host := some "example.com"
      port := none
      https_verify_certificate := false
      req_headers := []
      healthy := some sampleHealthy
      unhealthy := some sampleUnhealthy } }

/-- The sample upstream with the malformed-path health check attached. -/
def sampleUpstreamBadUri : Config.Upstream :=
  { sampleUpstream with checks := some sampleBadUriCheck }

theorem C3_witness :
    sampleUpstreamBadUri.checks = some sampleBadUriCheck ∧
    sampleBadUriCheck.active.check_kind = Config.ActiveCheckType.HTTP ∧
    pathAndQueryValid sampleBadUriCheck.active.http_path = false ∧
    ((httpHealthCheckFromConfig sampleBadUriCheck).2 =
        ["Invalid URI path provided for health check: /bad path"] ∧
      (httpHealthCheckFromConfig sampleBadUriCheck).1.req.uri = "/" ∧
      (ProxyUpstream.new_with_health_check sampleUpstreamBadUri false).map
          (fun pu => pu.lb.lb.upstreams.health_check) =
        .ok (some (HealthCheckImpl.http
          (httpHealthCheckFromConfig sampleBadUriCheck).1))) :=
  ⟨rfl, rfl, by decide,
    C3_invalid_uri_keeps_check sampleUpstreamBadUri sampleBadUriCheck false rfl
      (Or.inl rfl) (by decide)⟩

/-- C3 counterexample: with the malformed probe path the health check
is not disabled for this check: the constructed upstream still has a
health check installed on its load balancer, and the TCP/HTTP probe
engine will run it (against the default URI). -/
theorem C3_counterexample :
    pathAndQueryValid sampleBadUriCheck.active.http_path = false ∧
    (ProxyUpstream.new_with_health_check sampleUpstreamBadUri false).map
        (fun pu => pu.lb.lb.upstreams.health_check.isSome) = .ok true :=
  ⟨by decide, rfl⟩
